import Mathlib

/-!
Shallow embedding of the job-control engine of the ZeroSh shell
(src/main.rs, src/shell.rs).

The worker thread of `shell.rs` owns all job/process bookkeeping.  Its
state (`struct Worker`) and every method that the claims touch are
translated here one by one.  Conventions of the translation:

* `BTreeMap`/`HashMap` become association lists (`List (Nat × _)`) with
  `lookupA`/`insertA`/`eraseA`; `HashSet<Pid>` becomes `List Nat` with
  membership-respecting insert/remove.  Iteration order of a `HashMap`
  is unspecified in Rust; the only place it is iterated (`insert_job`)
  panics for every order reachable from `spawn_child`, so fixing the
  list order loses nothing.
* `Pid` is `Nat`, `i32` values are `Int` (the shell never performs
  arithmetic that can overflow an `i32`, it only stores and compares).
* A Rust panic (failed `assert!`, `unwrap()` of `None`, out-of-bounds
  index) is modelled by a `panicked : Bool` flag (or an `Option`),
  keeping the state mutated so far, exactly as the real thread keeps
  its partial mutations up to the panic.
* Side effects are recorded in an ordered `List Effect`: writes to
  standard error (`Effect.err`, one constructor per `eprintln!` site),
  messages to the shell loop over `shell_tx` (`Effect.send`), terminal
  foreground reassignment (`Effect.tcsetpgrp`) and the SIGCONT group
  signal (`Effect.killpg`).
* `fork_exec` performs a real fork; its outcome is passed in as an
  oracle `Except String Nat` (error, or the child pid).  Pipe
  descriptors are plumbing with no influence on the bookkeeping the
  claims are about and are not modelled.
-/

/-- Run state of one process (`enum ProcState`). -/
inductive ProcState where
  | Run
  | Stop
deriving DecidableEq, Repr

/-- `struct ProcInfo`: run state plus owning process-group id. -/
structure ProcInfo where
  state : ProcState
  pgid : Nat
deriving DecidableEq, Repr

/-- `enum ShellMsg`: authorization messages sent to the main shell loop. -/
inductive ShellMsg where
  | Continue (n : Int)
  | Quit (n : Int)
deriving DecidableEq, Repr

/-- One constructor per `eprintln!` site of the worker (standard error). -/
inductive ErrMsg where
  | parseError (e : String)
  | maxJobs
  | tooManyPipes
  | spawnError (e : String)
  | jobsRunning
  | invalidExitArg (s : String)
  | usageFg
  | resumeJob (n : Nat) (cmd : String)
  | jobNotFound (s : String)
  | jobDone (id : Nat) (line : String)
  | jobStopped (id : Nat) (line : String)
  | signaled (pid : Nat)
deriving DecidableEq, Repr

/-- Observable side effects of the worker, in program order. -/
inductive Effect where
  | err (m : ErrMsg)
  | send (m : ShellMsg)
  | tcsetpgrp (pgid : Nat)
  | killpg (pgid : Nat)
deriving DecidableEq, Repr

/-- One pipeline stage: command name and argument list (the Rust
`(&str, Vec<&str>)`; note the argument list does NOT contain the
command name). -/
abbrev Stage := String × List String

/-- `struct Worker`: the engine's whole mutable state. -/
structure Worker where
  exit_val : Int
  fg : Option Nat
  jobs : List (Nat × Nat × String)
  pgid_to_pids : List (Nat × Nat × List Nat)
  pid_to_info : List (Nat × ProcInfo)
  shell_pgid : Nat
deriving DecidableEq, Repr

/-- `Worker::new`, with the `tcgetpgrp` result supplied as a parameter. -/
def Worker.new (shell_pgid : Nat) : Worker :=
  { exit_val := 0, fg := none, jobs := [], pgid_to_pids := [],
    pid_to_info := [], shell_pgid := shell_pgid }

/-- Association-list lookup (`map.get(&k)`). -/
def lookupA {α : Type} (k : Nat) : List (Nat × α) → Option α
  | [] => none
  | (k1, v) :: rest => if k = k1 then some v else lookupA k rest

/-- Association-list key removal (`map.remove(&k)` discarding the value). -/
def eraseA {α : Type} (k : Nat) (m : List (Nat × α)) : List (Nat × α) :=
  m.filter (fun p => p.1 ≠ k)

/-- Association-list insert-or-replace (`map.insert(k, v)`). -/
def insertA {α : Type} (k : Nat) (v : α) (m : List (Nat × α)) : List (Nat × α) :=
  (k, v) :: eraseA k m

/-- Splits a character list at every occurrence of `c`, keeping empty
pieces — the semantics of Rust `str::split(c)`. -/
def splitOnChar (c : Char) : List Char → List (List Char)
  | [] => [[]]
  | x :: xs =>
    if x = c then [] :: splitOnChar c xs
    else
      match splitOnChar c xs with
      | [] => [[x]]
      | g :: gs => (x :: g) :: gs

/-- Rust `str::trim`: drop leading and trailing whitespace. -/
def trimChars (l : List Char) : List Char :=
  ((l.dropWhile Char.isWhitespace).reverse.dropWhile Char.isWhitespace).reverse

/-- Splits at every whitespace character, keeping empty pieces. -/
def splitWs : List Char → List (List Char)
  | [] => [[]]
  | x :: xs =>
    if x.isWhitespace then [] :: splitWs xs
    else
      match splitWs xs with
      | [] => [[x]]
      | g :: gs => (x :: g) :: gs

/-- Rust `str::split_whitespace`: whitespace-separated words, empties
dropped. -/
def wordsOf (l : List Char) : List String :=
  ((splitWs l).filter (fun w => w ≠ [])).map (fun w => String.mk w)

/-- `parse_cmd` of `shell.rs` (the tokenizer the worker actually uses):
split the line on pipes, trim each stage, whitespace-tokenize it; a
stage with no tokens is skipped (the `if let Some(command) = parts.next()`);
the function always returns `Ok`. -/
def parse_cmd (line : String) : Except String (List Stage) :=
  Except.ok (((splitOnChar '|' line.data).map trimChars).filterMap (fun stage =>
    match wordsOf stage with
    | [] => none
    | c :: args => some (c, args)))

/-- Reads an all-digit character list as a decimal number (`none` on any
non-digit or on the empty list). -/
def parseNatDigits : List Char → Option Nat → Option Nat
  | [], acc => acc
  | c :: cs, acc =>
    if '0' ≤ c ∧ c ≤ '9' then
      parseNatDigits cs (some ((acc.getD 0) * 10 + (c.toNat - '0'.toNat)))
    else none

/-- Rust `str::parse::<i32>`: optional sign, one or more digits, value
within the i32 range. -/
def parseI32 (s : String) : Option Int :=
  match s.data with
  | '+' :: rest =>
    (parseNatDigits rest none).bind (fun n =>
      if (n : Int) < 2 ^ 31 then some (n : Int) else none)
  | '-' :: rest =>
    (parseNatDigits rest none).bind (fun n =>
      if (n : Int) ≤ 2 ^ 31 then some (-(n : Int)) else none)
  | l =>
    (parseNatDigits l none).bind (fun n =>
      if (n : Int) < 2 ^ 31 then some (n : Int) else none)

/-- Rust `str::parse::<usize>`: optional plus sign, digits, within the
usize range (a minus sign falls into the default branch where it is not
a digit, hence fails). -/
def parseUsize (s : String) : Option Nat :=
  match s.data with
  | '+' :: rest =>
    (parseNatDigits rest none).bind (fun n => if n < 2 ^ 64 then some n else none)
  | l =>
    (parseNatDigits l none).bind (fun n => if n < 2 ^ 64 then some n else none)

/-- The loop `for i in 0..=usize::MAX` of `get_new_job_id`, run with
explicit fuel: returns the first index `≥ i` not a job key, or `none`
when the fuel ends. -/
def firstFreeFrom (keys : List Nat) : Nat → Nat → Option Nat
  | 0, _ => none
  | fuel + 1, i => if i ∈ keys then firstFreeFrom keys fuel (i + 1) else some i

/-- `Worker::get_new_job_id`: the smallest id not used by `jobs`.  Fuel
`jobs.length + 1` suffices: among `0..jobs.length` some id is free, so
the Rust loop never reaches `usize::MAX` on a representable state. -/
def get_new_job_id (w : Worker) : Option Nat :=
  firstFreeFrom (w.jobs.map Prod.fst) (w.jobs.length + 1) 0

/-- `Worker::run_exit`.  Returns the updated state, the effects in
order, and the handler's boolean result. -/
def run_exit (w : Worker) (args : List String) : Worker × List Effect × Bool :=
  if ¬ w.jobs.isEmpty then
    ({ w with exit_val := 1 },
     [Effect.err ErrMsg.jobsRunning, Effect.send (ShellMsg.Continue 1)], true)
  else
    match args.get? 1 with
    | some s =>
      match parseI32 s with
      | some n => (w, [Effect.send (ShellMsg.Quit n)], true)
      | none =>
        ({ w with exit_val := 1 },
         [Effect.err (ErrMsg.invalidExitArg s), Effect.send (ShellMsg.Continue 1)], true)
    | none => (w, [Effect.send (ShellMsg.Quit w.exit_val)], true)

/-- `Worker::run_fg`.  Note the source reads the job id from `args[1]`
and checks `args.len() < 2`, while `parse_cmd` delivers the arguments
without the command name. -/
def run_fg (w : Worker) (args : List String) : Worker × List Effect × Bool :=
  let w1 : Worker := { w with exit_val := 1 }
  if args.length < 2 then
    (w1, [Effect.err ErrMsg.usageFg, Effect.send (ShellMsg.Continue w1.exit_val)], false)
  else
    let a := args.getD 1 ""
    match parseUsize a with
    | some n =>
      match lookupA n w1.jobs with
      | some (pgid, cmdline) =>
        ({ w1 with fg := some pgid },
         [Effect.err (ErrMsg.resumeJob n cmdline), Effect.tcsetpgrp pgid,
          Effect.killpg pgid], true)
      | none =>
        (w1, [Effect.err (ErrMsg.jobNotFound a), Effect.send (ShellMsg.Continue w1.exit_val)], true)
    | none =>
      (w1, [Effect.err (ErrMsg.jobNotFound a), Effect.send (ShellMsg.Continue w1.exit_val)], true)

/-- `Worker::built_in_cmd`.  The boolean result is `none` for the panic
on `cmd[0]` when the parsed command list is empty. -/
def built_in_cmd (w : Worker) (cmd : List Stage) : Worker × List Effect × Option Bool :=
  if 1 < cmd.length then (w, [], some false)
  else
    match cmd with
    | [] => (w, [], none)
    | (c, args) :: _ =>
      if c = "exit" then
        let r := run_exit w args
        (r.1, r.2.1, some r.2.2)
      else if c = "fg" then
        let r := run_fg w args
        (r.1, r.2.1, some r.2.2)
      else (w, [], some false)

/-- `Worker::set_pid_state`: set the run state, return the old one;
`none` and no change when the pid is untracked. -/
def set_pid_state (w : Worker) (pid : Nat) (state : ProcState) : Worker × Option ProcState :=
  match lookupA pid w.pid_to_info with
  | none => (w, none)
  | some info =>
    ({ w with pid_to_info := insertA pid { info with state := state } w.pid_to_info },
     some info.state)

/-- `Worker::remove_pid`: removes the pid from its group's member set
and returns `(job_id, pgid)`.  Exactly like the source, it does NOT
remove the pid from `pid_to_info`. -/
def remove_pid (w : Worker) (pid : Nat) : Worker × Option (Nat × Nat) :=
  match lookupA pid w.pid_to_info with
  | none => (w, none)
  | some info =>
    match lookupA info.pgid w.pgid_to_pids with
    | none => (w, none)
    | some (job_id, pids) =>
      ({ w with pgid_to_pids :=
          insertA info.pgid (job_id, pids.filter (fun q => q ≠ pid)) w.pgid_to_pids },
       some (job_id, info.pgid))

/-- `Worker::remove_job`: drops the job and its group entry;
the boolean is the `assert!(pids.is_empty())` panic flag (the removals
precede the assert, as in the source). -/
def remove_job (w : Worker) (job_id : Nat) : Worker × Bool :=
  match lookupA job_id w.jobs with
  | none => (w, false)
  | some (pgid, _) =>
    let w1 : Worker := { w with jobs := eraseA job_id w.jobs }
    match lookupA pgid w1.pgid_to_pids with
    | none => (w1, false)
    | some (_, pids) =>
      ({ w1 with pgid_to_pids := eraseA pgid w1.pgid_to_pids }, ¬ pids.isEmpty)

/-- `Worker::is_group_empty`. -/
def is_group_empty (w : Worker) (pgid : Nat) : Option Bool :=
  (lookupA pgid w.pgid_to_pids).map (fun p => p.2.isEmpty)

/-- The member loop of `is_group_stop`: `none` models the
`pid_to_info.get(pid).unwrap()` panic on an untracked member. -/
def allStopped (w : Worker) : List Nat → Option Bool
  | [] => some true
  | p :: rest =>
    match lookupA p w.pid_to_info with
    | none => none
    | some info =>
      if info.state = ProcState.Run then some false else allStopped w rest

/-- `Worker::is_group_stop`.  `none` stands both for the Rust `None`
(group untracked) and for the member-unwrap panic: the only caller
(`manage_job`) immediately unwraps, turning either into a panic. -/
def is_group_stop (w : Worker) (pgid : Nat) : Option Bool :=
  match lookupA pgid w.pgid_to_pids with
  | none => none
  | some (_, pids) => allStopped w pids

/-- `Worker::set_shell_fg`: clear the foreground pointer, hand the
terminal back to the shell's group, authorize the next read. -/
def set_shell_fg (w : Worker) : Worker × List Effect :=
  ({ w with fg := none },
   [Effect.tcsetpgrp w.shell_pgid, Effect.send (ShellMsg.Continue w.exit_val)])

/-- Result of one engine step: state, effects in order, and whether the
worker thread panicked. -/
structure Step where
  w : Worker
  effects : List Effect
  panicked : Bool
deriving DecidableEq, Repr

/-- `Worker::manage_job`. -/
def manage_job (w : Worker) (job_id pgid : Nat) : Step :=
  let is_fg := w.fg = some pgid
  match lookupA job_id w.jobs with
  | none => ⟨w, [], true⟩
  | some (_, line) =>
    if is_fg then
      match is_group_empty w pgid with
      | none => ⟨w, [], true⟩
      | some true =>
        let r := remove_job w job_id
        if r.2 then ⟨r.1, [Effect.err (ErrMsg.jobDone job_id line)], true⟩
        else
          let s := set_shell_fg r.1
          ⟨s.1, Effect.err (ErrMsg.jobDone job_id line) :: s.2, false⟩
      | some false =>
        match is_group_stop w pgid with
        | none => ⟨w, [], true⟩
        | some true =>
          let s := set_shell_fg w
          ⟨s.1, Effect.err (ErrMsg.jobStopped job_id line) :: s.2, false⟩
        | some false => ⟨w, [], false⟩
    else
      match is_group_empty w pgid with
      | none => ⟨w, [], true⟩
      | some true =>
        let r := remove_job w job_id
        ⟨r.1, [Effect.err (ErrMsg.jobDone job_id line)], r.2⟩
      | some false => ⟨w, [], false⟩

/-- `Worker::process_term`. -/
def process_term (w : Worker) (pid : Nat) : Step :=
  match remove_pid w pid with
  | (w1, none) => ⟨w1, [], false⟩
  | (w1, some (job_id, pgid)) => manage_job w1 job_id pgid

/-- `Worker::process_stop`.  The two `unwrap()` calls are the `none`
branches: the pid lookup after `set_pid_state`, and the group lookup. -/
def process_stop (w : Worker) (pid : Nat) : Step :=
  let w1 := (set_pid_state w pid ProcState.Stop).1
  match lookupA pid w1.pid_to_info with
  | none => ⟨w1, [], true⟩
  | some info =>
    match lookupA info.pgid w1.pgid_to_pids with
    | none => ⟨w1, [], true⟩
    | some (job_id, _) => manage_job w1 job_id info.pgid

/-- `Worker::process_continue`. -/
def process_continue (w : Worker) (pid : Nat) : Worker :=
  (set_pid_state w pid ProcState.Run).1

/-- One child status change as reported by `waitpid`. -/
inductive WaitStatus where
  | Exited (pid : Nat) (status : Int)
  | Signaled (pid : Nat) (core : Bool)
  | Stopped (pid : Nat)
  | Continued (pid : Nat)
deriving DecidableEq, Repr

/-- One arm of the `match` in `Worker::wait_child`. -/
def handle_status (w : Worker) (s : WaitStatus) : Step :=
  match s with
  | WaitStatus.Exited pid status => process_term { w with exit_val := status } pid
  | WaitStatus.Signaled pid _ => ⟨w, [Effect.err (ErrMsg.signaled pid)], false⟩
  | WaitStatus.Stopped pid => process_stop w pid
  | WaitStatus.Continued pid => ⟨process_continue w pid, [], false⟩

/-- `Worker::wait_child`, driven by the list of statuses the kernel
reports before `StillAlive`/`ECHILD` ends the loop. -/
def wait_child (w : Worker) : List WaitStatus → Step
  | [] => ⟨w, [], false⟩
  | s :: rest =>
    let st := handle_status w s
    if st.panicked then st
    else
      let st2 := wait_child st.w rest
      ⟨st2.w, st.effects ++ st2.effects, st2.panicked⟩

/-- The `for (pid, info) in pids` loop of `insert_job`: inserts each
process into `pid_to_info` behind the `assert!(!contains_key)`;
returns the inserted keys (the local `procs` set) and the panic flag. -/
def insertPids (w : Worker) : List (Nat × ProcInfo) → Worker × List Nat × Bool
  | [] => (w, [], false)
  | (pid, info) :: rest =>
    if (lookupA pid w.pid_to_info).isSome then (w, [pid], true)
    else
      let w1 : Worker := { w with pid_to_info := insertA pid info w.pid_to_info }
      let r := insertPids w1 rest
      (r.1, pid :: r.2.1, r.2.2)

/-- `Worker::insert_job`.  The final guard reproduces the source's
`assert!(!self.pid_to_info.contains_key(&pgid))` verbatim — written
against `pid_to_info`, into which the loop has just inserted `pgid`. -/
def insert_job (w : Worker) (job_id pgid : Nat) (pids : List (Nat × ProcInfo))
    (line : String) : Worker × Bool :=
  if (lookupA job_id w.jobs).isSome then (w, true)
  else
    let w1 : Worker := { w with jobs := insertA job_id (pgid, line) w.jobs }
    let r := insertPids w1 pids
    if r.2.2 then (r.1, true)
    else if (lookupA pgid r.1.pid_to_info).isSome then (r.1, true)
    else ({ r.1 with pgid_to_pids := insertA pgid (job_id, r.2.1) r.1.pgid_to_pids }, false)

/-- Result of `Worker::spawn_child`: the state, effects, the pids
actually forked, the panic flag and the boolean return value. -/
structure SpawnRes where
  w : Worker
  effects : List Effect
  forked : List Nat
  panicked : Bool
  ret : Bool
deriving DecidableEq, Repr

/-- Tail of `spawn_child` after all forks succeeded: set the foreground
pointer, record the job (`insert_job`), hand the terminal over. -/
def spawn_finish (w : Worker) (line : String) (job_id pgid : Nat)
    (pids : List (Nat × ProcInfo)) (forked : List Nat) : SpawnRes :=
  let w1 : Worker := { w with fg := some pgid }
  let r := insert_job w1 job_id pgid pids line
  if r.2 then ⟨r.1, [], forked, true, false⟩
  else ⟨r.1, [Effect.tcsetpgrp pgid], forked, false, true⟩

/-- `Worker::spawn_child`.  `fork1`/`fork2` are the outcomes of the two
possible `fork_exec` calls (error message, or child pid). -/
def spawn_child (w : Worker) (line : String) (cmd : List Stage)
    (fork1 fork2 : Except String Nat) : SpawnRes :=
  if cmd.length = 0 then ⟨w, [], [], true, false⟩
  else
    match get_new_job_id w with
    | none => ⟨w, [Effect.err ErrMsg.maxJobs], [], false, false⟩
    | some job_id =>
      if 2 < cmd.length then ⟨w, [Effect.err ErrMsg.tooManyPipes], [], false, false⟩
      else
        match fork1 with
        | Except.error e => ⟨w, [Effect.err (ErrMsg.spawnError e)], [], false, false⟩
        | Except.ok pgid =>
          let info : ProcInfo := ⟨ProcState.Run, pgid⟩
          if cmd.length = 2 then
            match fork2 with
            | Except.error e =>
              ⟨w, [Effect.err (ErrMsg.spawnError e)], [pgid], false, false⟩
            | Except.ok child2 =>
              spawn_finish w line job_id pgid [(pgid, info), (child2, info)] [pgid, child2]
          else spawn_finish w line job_id pgid [(pgid, info)] [pgid]

/-- Result of handling one `WorkerMsg::Cmd` message. -/
structure HandleRes where
  w : Worker
  effects : List Effect
  forked : List Nat
  panicked : Bool
deriving DecidableEq, Repr

/-- The `WorkerMsg::Cmd(line)` arm of the worker loop (`Worker::spawn`):
parse, try the built-ins, otherwise `spawn_child`; when `spawn_child`
returns `false` the worker re-authorizes the shell with the current
`exit_val`. -/
def handle_cmd (w : Worker) (line : String) (fork1 fork2 : Except String Nat) : HandleRes :=
  match parse_cmd line with
  | Except.error e =>
    ⟨w, [Effect.err (ErrMsg.parseError e), Effect.send (ShellMsg.Continue w.exit_val)], [], false⟩
  | Except.ok cmd =>
    let b := built_in_cmd w cmd
    match b.2.2 with
    | none => ⟨b.1, b.2.1, [], true⟩
    | some true => ⟨b.1, b.2.1, [], false⟩
    | some false =>
      let s := spawn_child b.1 line cmd fork1 fork2
      if s.panicked then ⟨s.w, b.2.1 ++ s.effects, s.forked, true⟩
      else if s.ret then ⟨s.w, b.2.1 ++ s.effects, s.forked, false⟩
      else
        ⟨s.w, b.2.1 ++ s.effects ++ [Effect.send (ShellMsg.Continue s.w.exit_val)],
         s.forked, false⟩

/-- Equality of fork/parse results is decidable (needed to evaluate the
model on concrete inputs). -/
instance {ε α : Type} [DecidableEq ε] [DecidableEq α] : DecidableEq (Except ε α) := fun a b =>
  match a, b with
  | Except.ok x, Except.ok y =>
    if h : x = y then Decidable.isTrue (by rw [h]) else Decidable.isFalse (by simp [h])
  | Except.ok _, Except.error _ => Decidable.isFalse (by simp)
  | Except.error _, Except.ok _ => Decidable.isFalse (by simp)
  | Except.error x, Except.error y =>
    if h : x = y then Decidable.isTrue (by rw [h]) else Decidable.isFalse (by simp [h])

/-- A worker tracking exactly one job: job 1, group 100, whose single
process 100 is stopped — the state in which the user would type `fg 1`. -/
def wFg1 : Worker :=
  { exit_val := 0, fg := none, jobs := [(1, (100, "sleep 100"))],
    pgid_to_pids := [(100, (1, [100]))],
    pid_to_info := [(100, ⟨ProcState.Stop, 100⟩)], shell_pgid := 5 }

/-- A worker tracking one single-process foreground job: job 0,
group 10, running process 10. -/
def w3demo : Worker :=
  { exit_val := 0, fg := some 10, jobs := [(0, (10, "cat"))],
    pgid_to_pids := [(10, (0, [10]))],
    pid_to_info := [(10, ⟨ProcState.Run, 10⟩)], shell_pgid := 5 }

/-- A worker whose job table uses ids 0, 1 and 3, leaving 2 as the
smallest free id. -/
def wGap : Worker :=
  { exit_val := 0, fg := none,
    jobs := [(0, (10, "a")), (1, (20, "b")), (3, (30, "c"))],
    pgid_to_pids := [], pid_to_info := [], shell_pgid := 5 }

/-! ### Helper lemmas about the association-list operations -/

theorem lookupA_isSome_iff {α : Type} (k : Nat) (m : List (Nat × α)) :
    (lookupA k m).isSome = true ↔ k ∈ m.map Prod.fst := by
  induction m with
  | nil => simp [lookupA]
  | cons p rest ih =>
    obtain ⟨k1, v⟩ := p
    by_cases h : k = k1 <;> simp [lookupA, h, ih]

theorem lookupA_eraseA_ne {α : Type} {k k1 : Nat} (h : k ≠ k1) (m : List (Nat × α)) :
    lookupA k (eraseA k1 m) = lookupA k m := by
  induction m with
  | nil => rfl
  | cons p rest ih =>
    obtain ⟨k2, v2⟩ := p
    by_cases h2 : k2 = k1
    · subst h2
      have hk : k ≠ k2 := h
      simp [eraseA, List.filter_cons, lookupA, hk, ih] at ih ⊢
      exact ih
    · by_cases hk : k = k2 <;> simp [eraseA, List.filter_cons, lookupA, h2, hk, ih] at ih ⊢
      exact ih

theorem lookupA_insertA {α : Type} (k k1 : Nat) (v : α) (m : List (Nat × α)) :
    lookupA k (insertA k1 v m) = if k = k1 then some v else lookupA k m := by
  by_cases h : k = k1
  · simp [insertA, lookupA, h]
  · simp [insertA, lookupA, h, lookupA_eraseA_ne h]

/-! ### The job-id allocator always finds the least free id -/

theorem exists_not_mem_le_length (keys : List Nat) :
    ∃ i, i ≤ keys.length ∧ i ∉ keys := by
  by_contra h
  push_neg at h
  have hsub : Finset.range (keys.length + 1) ⊆ keys.toFinset := by
    intro x hx
    rw [Finset.mem_range] at hx
    exact List.mem_toFinset.mpr (h x (Nat.lt_succ_iff.mp hx))
  have h1 : keys.length + 1 ≤ keys.toFinset.card := by
    simpa using Finset.card_le_card hsub
  have h2 : keys.toFinset.card ≤ keys.length := keys.toFinset_card_le
  omega

theorem firstFreeFrom_spec (keys : List Nat) :
    ∀ (fuel i : Nat), (∃ j, i ≤ j ∧ j < i + fuel ∧ j ∉ keys) →
      ∃ r, firstFreeFrom keys fuel i = some r ∧ r ∉ keys ∧ i ≤ r ∧
        ∀ j, i ≤ j → j < r → j ∈ keys := by
  intro fuel
  induction fuel with
  | zero =>
    intro i hex
    obtain ⟨j, h1, h2, _⟩ := hex
    omega
  | succ n ih =>
    intro i hex
    obtain ⟨j, hij, hlt, hnot⟩ := hex
    by_cases hmem : i ∈ keys
    · have hji : i ≠ j := fun he => hnot (he ▸ hmem)
      obtain ⟨r, hr, hrk, hir, hall⟩ := ih (i + 1) ⟨j, by omega, by omega, hnot⟩
      refine ⟨r, ?_, hrk, by omega, ?_⟩
      · simp [firstFreeFrom, hmem, hr]
      · intro j2 hj2 hj2r
        rcases Nat.eq_or_lt_of_le hj2 with he | hlt2
        · exact he ▸ hmem
        · exact hall j2 (by omega) hj2r
    · exact ⟨i, by simp [firstFreeFrom, hmem], hmem, Nat.le_refl i,
        fun j2 h1 h2 => absurd (Nat.lt_of_le_of_lt h1 h2) (Nat.lt_irrefl i)⟩

theorem get_new_job_id_spec (w : Worker) :
    ∃ i, get_new_job_id w = some i ∧ i ∉ w.jobs.map Prod.fst ∧
      ∀ j, j < i → j ∈ w.jobs.map Prod.fst := by
  obtain ⟨i, hle, hnot⟩ := exists_not_mem_le_length (w.jobs.map Prod.fst)
  have hlen : (w.jobs.map Prod.fst).length = w.jobs.length := List.length_map _ _
  obtain ⟨r, hr, hrk, _, hall⟩ := firstFreeFrom_spec (w.jobs.map Prod.fst)
    (w.jobs.length + 1) 0 ⟨i, Nat.zero_le i, by omega, hnot⟩
  exact ⟨r, hr, hrk, fun j hj => hall j (Nat.zero_le j) hj⟩

/-! ### Behaviour of the built-in dispatcher and of spawn_child -/

theorem built_in_cmd_long (w : Worker) (cmd : List Stage) (h : 1 < cmd.length) :
    built_in_cmd w cmd = (w, [], some false) := by
  unfold built_in_cmd
  rw [if_pos h]

theorem built_in_cmd_other (w : Worker) (c : String) (args : List String)
    (rest : List Stage) (h1 : c ≠ "exit") (h2 : c ≠ "fg") :
    built_in_cmd w ((c, args) :: rest) = (w, [], some false) := by
  by_cases h : 1 < ((c, args) :: rest).length
  · exact built_in_cmd_long _ _ h
  · unfold built_in_cmd
    rw [if_neg h]
    simp [h1, h2]

theorem insertPids_preserves {k : Nat} :
    ∀ (l : List (Nat × ProcInfo)) (w : Worker),
      (lookupA k w.pid_to_info).isSome = true →
      (lookupA k ((insertPids w l).1).pid_to_info).isSome = true := by
  intro l
  induction l with
  | nil => intro w h; simpa [insertPids] using h
  | cons p rest ih =>
    intro w h
    obtain ⟨pid, info⟩ := p
    cases hp : (lookupA pid w.pid_to_info).isSome
    · have h1 : (lookupA k (insertA pid info w.pid_to_info)).isSome = true := by
        rw [lookupA_insertA]
        by_cases hk : k = pid <;> simp [hk, h]
      simpa [insertPids, hp] using ih _ h1
    · simpa [insertPids, hp] using h

theorem insertPids_covers {k : Nat} :
    ∀ (l : List (Nat × ProcInfo)) (w : Worker), k ∈ l.map Prod.fst →
      (insertPids w l).2.2 = true ∨
      (lookupA k ((insertPids w l).1).pid_to_info).isSome = true := by
  intro l
  induction l with
  | nil => intro w h; simp at h
  | cons p rest ih =>
    intro w h
    obtain ⟨pid, info⟩ := p
    have h0 : k = pid ∨ k ∈ rest.map Prod.fst := by
      simpa only [List.map_cons, List.mem_cons] using h
    cases hp : (lookupA pid w.pid_to_info).isSome
    · rcases h0 with he | hm
      · right
        have h1 : (lookupA k (insertA pid info w.pid_to_info)).isSome = true := by
          rw [lookupA_insertA, if_pos he]
          rfl
        simpa [insertPids, hp] using insertPids_preserves rest _ h1
      · have := ih { w with pid_to_info := insertA pid info w.pid_to_info } hm
        rcases this with hl | hr
        · left; simpa [insertPids, hp] using hl
        · right; simpa [insertPids, hp] using hr
    · left; simp [insertPids, hp]

theorem insert_job_panics (w : Worker) (job_id pgid : Nat)
    (pids : List (Nat × ProcInfo)) (line : String)
    (h : pgid ∈ pids.map Prod.fst) :
    (insert_job w job_id pgid pids line).2 = true := by
  unfold insert_job
  cases hj : (lookupA job_id w.jobs).isSome
  · rcases insertPids_covers pids { w with jobs := insertA job_id (pgid, line) w.jobs } h
      with hp | hs
    · simp [hj, hp]
    · cases hpan : (insertPids { w with jobs := insertA job_id (pgid, line) w.jobs } pids).2.2
      · simp [hj, hpan, hs]
      · simp [hj, hpan]
  · simp [hj]

theorem spawn_child_deep (w : Worker) (line : String) (cmd : List Stage)
    (f1 f2 : Except String Nat) (h : 2 < cmd.length) :
    spawn_child w line cmd f1 f2 =
      ⟨w, [Effect.err ErrMsg.tooManyPipes], [], false, false⟩ := by
  obtain ⟨j, hj, _, _⟩ := get_new_job_id_spec w
  unfold spawn_child
  rw [if_neg (by omega : ¬ cmd.length = 0), hj]
  simp [h]

theorem spawn_child_err1 (w : Worker) (line : String) (cmd : List Stage)
    (f2 : Except String Nat) (e : String)
    (h0 : cmd ≠ []) (h2 : ¬ 2 < cmd.length) :
    spawn_child w line cmd (Except.error e) f2 =
      ⟨w, [Effect.err (ErrMsg.spawnError e)], [], false, false⟩ := by
  obtain ⟨j, hj, _, _⟩ := get_new_job_id_spec w
  unfold spawn_child
  rw [if_neg (by simpa [List.length_eq_zero] using h0), hj]
  simp [h2]

theorem spawn_child_err2 (w : Worker) (line : String) (a b : Stage)
    (p : Nat) (e : String) :
    spawn_child w line [a, b] (Except.ok p) (Except.error e) =
      ⟨w, [Effect.err (ErrMsg.spawnError e)], [p], false, false⟩ := by
  obtain ⟨j, hj, _, _⟩ := get_new_job_id_spec w
  unfold spawn_child
  rw [hj]
  simp

theorem spawn_child_two (w : Worker) (line : String) (a b : Stage) (p1 p2 : Nat) :
    (spawn_child w line [a, b] (Except.ok p1) (Except.ok p2)).forked = [p1, p2] ∧
    (spawn_child w line [a, b] (Except.ok p1) (Except.ok p2)).panicked = true ∧
    (spawn_child w line [a, b] (Except.ok p1) (Except.ok p2)).ret = false := by
  obtain ⟨j, hj, _, _⟩ := get_new_job_id_spec w
  have hp : (insert_job { w with fg := some p1 } j p1
      [(p1, ⟨ProcState.Run, p1⟩), (p2, ⟨ProcState.Run, p1⟩)] line).2 = true :=
    insert_job_panics _ _ _ _ _ (by simp)
  unfold spawn_child
  rw [hj]
  simp [spawn_finish, hp]

/-! ### Tokenizer lemmas -/

theorem wordsOf_mem_ne_empty (l : List Char) (s : String) (h : s ∈ wordsOf l) :
    s ≠ "" := by
  unfold wordsOf at h
  obtain ⟨w, hw, he⟩ := List.mem_map.mp h
  have hne : w ≠ [] := by simpa using (List.mem_filter.mp hw).2
  intro hc
  apply hne
  have hd : (String.mk w).data = ("" : String).data := by rw [he, hc]
  simpa using hd

theorem tokenizer_stage_count (l : List (List Char)) :
    (l.filterMap (fun stage =>
      match wordsOf stage with
      | [] => none
      | c :: args => some ((c, args) : Stage))).length =
    (l.filter (fun s => !(wordsOf s).isEmpty)).length := by
  induction l with
  | nil => rfl
  | cons s rest ih =>
    cases hw : wordsOf s with
    | nil => simp [List.filterMap_cons, List.filter_cons, hw, ih]
    | cons c args => simp [List.filterMap_cons, List.filter_cons, hw, ih]

/-! ### Claim theorems -/

/-- Claim C1, code bug exhibited: on the line `fg 1` while job 1 (group
100) is tracked, the worker prints the usage error and sends Continue
with exit code 1 instead of foregrounding group 100 — no terminal
handoff to group 100, no continue signal to it — and the line then falls
through to the external-spawn path, forking `fg` as an external process
(after which `insert_job` panics).  Cause: `run_fg` reads the job id
from `args[1]` and tests `args.len() < 2`, but `parse_cmd` delivers the
argument list without the command name, so the id of `fg 1` is at
`args[0]`. -/
theorem fg_one_arg_misparsed :
    (handle_cmd wFg1 "fg 1" (Except.ok 200) (Except.ok 201)).effects =
      [Effect.err ErrMsg.usageFg, Effect.send (ShellMsg.Continue 1)] ∧
    (handle_cmd wFg1 "fg 1" (Except.ok 200) (Except.ok 201)).forked = [200] ∧
    (handle_cmd wFg1 "fg 1" (Except.ok 200) (Except.ok 201)).panicked = true ∧
    Effect.tcsetpgrp 100 ∉ (handle_cmd wFg1 "fg 1" (Except.ok 200) (Except.ok 201)).effects ∧
    Effect.killpg 100 ∉ (handle_cmd wFg1 "fg 1" (Except.ok 200) (Except.ok 201)).effects ∧
    (handle_cmd wFg1 "fg 1" (Except.ok 200) (Except.ok 201)).w.fg ≠ some 100 := by
  decide

/-- Claim C2, code bug exhibited: with no job tracked and last exit
value 0, `exit 3` quits with code 0 (the argument `3` is ignored, being
at `args[0]` while the code reads `args.get(1)`), and `exit foo` also
quits with code 0 instead of reporting the bad argument and continuing;
only the bare `exit` behaves as specified. -/
theorem exit_code_arg_ignored :
    (handle_cmd (Worker.new 5) "exit 3" (Except.ok 0) (Except.ok 0)).effects =
      [Effect.send (ShellMsg.Quit 0)] ∧
    (handle_cmd (Worker.new 5) "exit foo" (Except.ok 0) (Except.ok 0)).effects =
      [Effect.send (ShellMsg.Quit 0)] ∧
    (handle_cmd (Worker.new 5) "exit" (Except.ok 0) (Except.ok 0)).effects =
      [Effect.send (ShellMsg.Quit 0)] := by
  decide

/-- Claim C3, code bug exhibited: `remove_pid` never touches
`pid_to_info` (for every state and pid the process table is unchanged),
so after the reap of `Exited(10, 0)` on a single-process job the cycle
completes without panic, the group and job entries are gone, yet pid 10
still has a record in the process table — a record that is a member of
no group's member set. -/
theorem remove_pid_leaves_process_table :
    (∀ (w : Worker) (pid : Nat), ((remove_pid w pid).1).pid_to_info = w.pid_to_info) ∧
    (handle_status w3demo (WaitStatus.Exited 10 0)).panicked = false ∧
    (handle_status w3demo (WaitStatus.Exited 10 0)).w.pid_to_info =
      [(10, ⟨ProcState.Run, 10⟩)] ∧
    (handle_status w3demo (WaitStatus.Exited 10 0)).w.pgid_to_pids = [] ∧
    (handle_status w3demo (WaitStatus.Exited 10 0)).w.jobs = [] := by
  refine ⟨?_, by decide, by decide, by decide, by decide⟩
  intro w pid
  unfold remove_pid
  cases h1 : lookupA pid w.pid_to_info with
  | none => rfl
  | some info =>
    cases h2 : lookupA info.pgid w.pgid_to_pids with
    | none => simp [h2]
    | some pr =>
      obtain ⟨job_id, pids⟩ := pr
      simp [h2]

/-- Claim C4, counterexample: submitting the 2-stage pipeline
`echo hi | fg` (a built-in as second stage) is not rejected — a process
is forked for each stage, contradicting that no process is spawned. -/
theorem builtin_pipeline_forks_processes :
    (handle_cmd (Worker.new 5) "echo hi | fg" (Except.ok 100) (Except.ok 101)).forked =
      [100, 101] := by
  decide

/-- Claim C4 as amended: for a 2-stage pipeline containing a built-in
name, the built-in dispatcher declines without running any handler
(returns false with no effect), and the pipeline is then executed by
the external-spawn path, which forks a process for each stage (the
worker subsequently panics in `insert_job`); only pipelines deeper than
2 stages are rejected outright. -/
theorem builtin_pipeline_not_rejected (w : Worker) (line : String) (a b : Stage)
    (p1 p2 : Nat) (hp : parse_cmd line = Except.ok [a, b])
    (_hbi : a.1 = "exit" ∨ a.1 = "fg" ∨ b.1 = "exit" ∨ b.1 = "fg") :
    built_in_cmd w [a, b] = (w, [], some false) ∧
    (handle_cmd w line (Except.ok p1) (Except.ok p2)).forked = [p1, p2] ∧
    (handle_cmd w line (Except.ok p1) (Except.ok p2)).panicked = true := by
  have hb := built_in_cmd_long w [a, b] (by simp)
  obtain ⟨hf, hpan, hret⟩ := spawn_child_two w line a b p1 p2
  refine ⟨hb, ?_, ?_⟩ <;> simp [handle_cmd, hp, hb, hpan, hf]

/-- Witness for C4: the amended theorem applied to `echo hi | fg` in the
fresh worker state, with fork results 100 and 101. -/
theorem builtin_pipeline_not_rejected_witness :
    built_in_cmd (Worker.new 5) [("echo", ["hi"]), ("fg", [])] =
      (Worker.new 5, [], some false) ∧
    (handle_cmd (Worker.new 5) "echo hi | fg" (Except.ok 100) (Except.ok 101)).forked =
      [100, 101] ∧
    (handle_cmd (Worker.new 5) "echo hi | fg" (Except.ok 100) (Except.ok 101)).panicked =
      true :=
  builtin_pipeline_not_rejected (Worker.new 5) "echo hi | fg" ("echo", ["hi"]) ("fg", [])
    100 101 (by decide) (Or.inr (Or.inr (Or.inr rfl)))

/-- Claim C5, code bug exhibited: on `fg 7` with an empty job table the
worker does report an error (the usage message, not the job-not-found
one) and does send Continue(1), but it then proceeds to fork `fg` as an
external command: a process is forked, job 0 for the line `fg 7` is
inserted into the job table, and the worker panics in `insert_job` —
the job table is not left unchanged.  Same argv-off-by-one cause as for
claim C1. -/
theorem fg_unknown_job_spawns_external :
    (handle_cmd (Worker.new 5) "fg 7" (Except.ok 300) (Except.ok 301)).effects =
      [Effect.err ErrMsg.usageFg, Effect.send (ShellMsg.Continue 1)] ∧
    (handle_cmd (Worker.new 5) "fg 7" (Except.ok 300) (Except.ok 301)).forked = [300] ∧
    (handle_cmd (Worker.new 5) "fg 7" (Except.ok 300) (Except.ok 301)).w.jobs =
      [(0, (300, "fg 7"))] ∧
    (handle_cmd (Worker.new 5) "fg 7" (Except.ok 300) (Except.ok 301)).panicked = true := by
  decide

/-- Claim C6, counterexample: a spawn error in the fresh state (last
exit value 0) is reported to standard error but the continuation
authorization carries exit code 0 — a success status, not a failure
status. -/
theorem spawn_error_success_status :
    handle_cmd (Worker.new 5) "nosuch" (Except.error "fork failed") (Except.ok 0) =
      ⟨Worker.new 5,
       [Effect.err (ErrMsg.spawnError "fork failed"), Effect.send (ShellMsg.Continue 0)],
       [], false⟩ := by
  decide

/-- Claim C6 as amended: a spawn error (first or second fork) is
reported to standard error and authorizes shell continuation with the
current last exit value — not necessarily a failure status — and never
panics the engine; the state is left unchanged and no built-in handler
output precedes it.  (Parse errors cannot occur at all: the tokenizer
is total, see the C8 theorem.) -/
theorem spawn_error_reports_and_continues :
    (∀ (w : Worker) (line e : String) (c : String) (args : List String)
      (rest : List Stage) (f2 : Except String Nat),
      parse_cmd line = Except.ok ((c, args) :: rest) → c ≠ "exit" → c ≠ "fg" →
      ((c, args) :: rest).length ≤ 2 →
      handle_cmd w line (Except.error e) f2 =
        ⟨w, [Effect.err (ErrMsg.spawnError e), Effect.send (ShellMsg.Continue w.exit_val)],
         [], false⟩) ∧
    (∀ (w : Worker) (line e : String) (a b : Stage) (p : Nat),
      parse_cmd line = Except.ok [a, b] →
      handle_cmd w line (Except.ok p) (Except.error e) =
        ⟨w, [Effect.err (ErrMsg.spawnError e), Effect.send (ShellMsg.Continue w.exit_val)],
         [p], false⟩) := by
  constructor
  · intro w line e c args rest f2 hp h1 h2 hlen
    have hb : built_in_cmd w ((c, args) :: rest) = (w, [], some false) := by
      cases rest with
      | nil => exact built_in_cmd_other w c args [] h1 h2
      | cons r rs => exact built_in_cmd_long _ _ (by simp)
    have hs := spawn_child_err1 w line ((c, args) :: rest) f2 e (by simp)
      (by simp at hlen ⊢; omega)
    simp [handle_cmd, hp, hb, hs]
  · intro w line e a b p hp
    have hb := built_in_cmd_long w [a, b] (by simp)
    have hs := spawn_child_err2 w line a b p e
    simp [handle_cmd, hp, hb, hs]

/-- Witness for C6: the amended theorem applied to the line `nosuch` in
the fresh worker state with a failing first fork. -/
theorem spawn_error_reports_and_continues_witness :
    handle_cmd (Worker.new 5) "nosuch" (Except.error "no memory") (Except.ok 0) =
      ⟨Worker.new 5,
       [Effect.err (ErrMsg.spawnError "no memory"), Effect.send (ShellMsg.Continue 0)],
       [], false⟩ :=
  spawn_error_reports_and_continues.1 (Worker.new 5) "nosuch" "no memory" "nosuch" [] []
    (Except.ok 0) (by decide) (by decide) (by decide) (by decide)

/-- Claim C7: a pipeline of more than 2 stages is rejected: the worker
reports the too-many-pipes error, authorizes the shell to continue with
the current exit value, forks nothing, does not panic, and leaves the
whole state (in particular the job table) unchanged. -/
theorem deep_pipeline_rejected (w : Worker) (line : String) (cmd : List Stage)
    (f1 f2 : Except String Nat) (hp : parse_cmd line = Except.ok cmd)
    (h : 2 < cmd.length) :
    handle_cmd w line f1 f2 =
      ⟨w, [Effect.err ErrMsg.tooManyPipes, Effect.send (ShellMsg.Continue w.exit_val)],
       [], false⟩ := by
  have hb := built_in_cmd_long w cmd (by omega)
  have hs := spawn_child_deep w line cmd f1 f2 h
  simp [handle_cmd, hp, hb, hs]

/-- Witness for C7: the 3-stage line from the spec's test vector,
submitted to the fresh worker state. -/
theorem deep_pipeline_rejected_witness :
    handle_cmd (Worker.new 5) "echo hello | less | cat" (Except.ok 1) (Except.ok 2) =
      ⟨Worker.new 5,
       [Effect.err ErrMsg.tooManyPipes, Effect.send (ShellMsg.Continue 0)], [], false⟩ :=
  deep_pipeline_rejected (Worker.new 5) "echo hello | less | cat"
    [("echo", ["hello"]), ("less", []), ("cat", [])] (Except.ok 1) (Except.ok 2)
    (by decide) (by decide)

/-- Claim C8: tokenizing `echo hello | less | cat` yields exactly the
three stages (echo, [hello]), (less, []), (cat, []); the tokenizer
never returns an error; every stage present in any result has a
non-empty command name; and the number of result stages equals the
number of raw pipe-separated stages that contain at least one token —
so a stage yielding no command name is simply absent from the result. -/
theorem tokenizer_drops_empty_stages :
    parse_cmd "echo hello | less | cat" =
      Except.ok [("echo", ["hello"]), ("less", []), ("cat", [])] ∧
    (∀ line : String, ∃ r, parse_cmd line = Except.ok r) ∧
    (∀ (line : String) (r : List Stage), parse_cmd line = Except.ok r →
      ∀ p ∈ r, p.1 ≠ "") ∧
    (∀ (line : String) (r : List Stage), parse_cmd line = Except.ok r →
      r.length = (((splitOnChar '|' line.data).map trimChars).filter
        (fun s => !(wordsOf s).isEmpty)).length) := by
  refine ⟨by decide, fun line => ⟨_, rfl⟩, ?_, ?_⟩
  · intro line r h p hp
    unfold parse_cmd at h
    injection h with h
    subst h
    obtain ⟨stage, hst, hf⟩ := List.mem_filterMap.mp hp
    cases hw : wordsOf stage with
    | nil => rw [hw] at hf; simp at hf
    | cons c args =>
      rw [hw] at hf
      simp only [Option.some.injEq] at hf
      have hc : c ∈ wordsOf stage := by rw [hw]; exact List.mem_cons_self c args
      have := wordsOf_mem_ne_empty stage c hc
      rw [← hf]
      exact this
  · intro line r h
    unfold parse_cmd at h
    injection h with h
    subst h
    exact tokenizer_stage_count _

/-- Witness for C8: the membership conjunct applied at the concrete line
with an empty middle stage, which is dropped from the result. -/
theorem tokenizer_drops_empty_stages_witness :
    parse_cmd "echo hello | | less" = Except.ok [("echo", ["hello"]), ("less", [])] ∧
    ("less" : String) ≠ "" :=
  ⟨by decide,
   tokenizer_drops_empty_stages.2.2.1 "echo hello | | less"
     [("echo", ["hello"]), ("less", [])] (by decide) ("less", []) (by decide)⟩

/-- Claim C9: whenever the job-id allocator returns an id it is not a
current job-table key while every smaller id is (so it is the smallest
non-negative integer not currently assigned, and ids freed by job
removal are reused), and on every representable job-table state the
allocator does return an id. -/
theorem job_id_allocator_least_free :
    (∀ (w : Worker) (i : Nat), get_new_job_id w = some i →
      i ∉ w.jobs.map Prod.fst ∧ ∀ j, j < i → j ∈ w.jobs.map Prod.fst) ∧
    (∀ w : Worker, (get_new_job_id w).isSome = true) := by
  constructor
  · intro w i hi
    obtain ⟨r, hr, hrk, hall⟩ := get_new_job_id_spec w
    rw [hi] at hr
    injection hr with hir
    subst hir
    exact ⟨hrk, hall⟩
  · intro w
    obtain ⟨r, hr, _, _⟩ := get_new_job_id_spec w
    simp [hr]

/-- Witness for C9: in a state whose job table uses ids 0, 1 and 3, the
allocator returns 2, which is free while the smaller id 1 is in use. -/
theorem job_id_allocator_least_free_witness :
    (2 : Nat) ∉ wGap.jobs.map Prod.fst ∧ (1 : Nat) ∈ wGap.jobs.map Prod.fst :=
  ⟨(job_id_allocator_least_free.1 wGap 2 (by decide)).1,
   (job_id_allocator_least_free.1 wGap 2 (by decide)).2 1 (by decide)⟩

/-- Claim C10: a Stopped(pid) report for a pid with no record in the
process table makes the stop handler panic (the model returns the
panicked flag with the state unchanged), so the handler is total only
when the reported pid is tracked; and the scenario is reachable because
a 2-stage pipeline whose second fork fails leaves the worker state
untouched even though the first-stage process was already forked — that
process is never recorded and can later stop. -/
theorem process_stop_untracked_panics :
    (∀ (w : Worker) (pid : Nat), lookupA pid w.pid_to_info = none →
      process_stop w pid = ⟨w, [], true⟩) ∧
    (∀ (w : Worker) (line e : String) (a b : Stage) (p : Nat),
      spawn_child w line [a, b] (Except.ok p) (Except.error e) =
        ⟨w, [Effect.err (ErrMsg.spawnError e)], [p], false, false⟩) := by
  constructor
  · intro w pid h
    simp [process_stop, set_pid_state, h]
  · intro w line e a b p
    exact spawn_child_err2 w line a b p e

/-- Witness for C10: the stop of the untracked pid 42 in the fresh
worker state panics the handler. -/
theorem process_stop_untracked_panics_witness :
    process_stop (Worker.new 5) 42 = ⟨Worker.new 5, [], true⟩ :=
  process_stop_untracked_panics.1 (Worker.new 5) 42 rfl
